import Mathlib

/-!
Verification of the thermal-comfort controller (proyecto.ino / proyectoAC.ino).

Shallow embedding of the finite-state control supervisor, the Fanger PMV
solver and the EEPROM tag registry, translated from the Arduino sources.
Floating-point arithmetic is modelled over the real numbers; sensor readings
that are only compared against decimal thresholds are modelled over the
rationals to keep the control layer computable.
-/

namespace ProyectoAC

/-- `enum State` (proyecto.ino lines 429-437). -/
inductive State where
  | INICIO'
  | CONFIG
  | ALARMA
  | MONITOR
  | BLOQUEO
  | PMV_ALTO
  | PMV_BAJO
deriving DecidableEq, Repr, Fintype

/-- `enum Input` (proyecto.ino lines 444-454). -/
inductive Input where
  | SISTEMA_BLOQUEADO
  | TECLA_ASTERISCO
  | CLAVE_CORRECTA
  | TIEMPO_EXPIRADO
  | PMV_MENOR_QUE_MENOS1
  | PMV_MAYOR_QUE_1
  | TEMP_ALTA_3_INTENTOS
  | SENSOR_INFRARROJO
  | Unknown
deriving DecidableEq, Repr, Fintype

open State Input

/-- The eleven `stateMachine.AddTransition(from, to, predicate)` calls of
`setupStateMachine` (proyecto.ino lines 569-613; identically in
proyectoAC.ino lines 550-572), in registration order.  Each predicate is the
registered lambda, a function of the pending `input`. -/
def rules : List (State × State × (Input → Bool)) :=
  [ (INICIO', CONFIG, fun input => input == CLAVE_CORRECTA),
    (INICIO', BLOQUEO, fun input => input == SISTEMA_BLOQUEADO),
    (BLOQUEO, INICIO', fun input => input == TECLA_ASTERISCO),
    (CONFIG, MONITOR, fun input => input == TIEMPO_EXPIRADO),
    (MONITOR, PMV_BAJO, fun input => input == PMV_MENOR_QUE_MENOS1),
    (MONITOR, PMV_ALTO, fun input => input == PMV_MAYOR_QUE_1),
    (MONITOR, CONFIG, fun input => input == TIEMPO_EXPIRADO),
    (PMV_BAJO, MONITOR, fun input => input == TIEMPO_EXPIRADO),
    (PMV_ALTO, MONITOR, fun input => input == TIEMPO_EXPIRADO),
    (PMV_ALTO, ALARMA, fun input => input == TEMP_ALTA_3_INTENTOS),
    (ALARMA, INICIO', fun input => input == SENSOR_INFRARROJO) ]

/-- Modelled from the spec: `StateMachineLib`'s `Update` (the library itself is
not part of the repository sources; only `setupStateMachine` and the callers
are).  Per the spec, `step` evaluates all rules whose `fromState` equals the
current state and takes the (at most one) matching transition, leaving the
state unchanged when none matches.  `stepState` returns the target of that
transition, if any. -/
def stepState (s : State) (i : Input) : Option State :=
  (rules.find? (fun r => r.1 == s && r.2.2 i)).map (fun r => r.2.1)

/-- Whether some registered rule from state `s` accepts event `i`. -/
def hasRule (s : State) (i : Input) : Bool :=
  rules.any (fun r => r.1 == s && r.2.2 i)

/-- Number of rules from state `s` whose predicate accepts event `i`. -/
def matchCount (s : State) (i : Input) : Nat :=
  (rules.filter (fun r => r.1 == s && r.2.2 i)).length

/-- The 11-row transition table exactly as the specification prints it
(spec section 4.2); every pair without a row maps to itself.  This is the
specification-side description that the source-derived `stepState` is
compared against. -/
def spec_tableStep : State → Input → State
  | INICIO', CLAVE_CORRECTA => CONFIG
  | INICIO', SISTEMA_BLOQUEADO => BLOQUEO
  | BLOQUEO, TECLA_ASTERISCO => INICIO'
  | CONFIG, TIEMPO_EXPIRADO => MONITOR
  | MONITOR, PMV_MENOR_QUE_MENOS1 => PMV_BAJO
  | MONITOR, PMV_MAYOR_QUE_1 => PMV_ALTO
  | MONITOR, TIEMPO_EXPIRADO => CONFIG
  | PMV_BAJO, TIEMPO_EXPIRADO => MONITOR
  | PMV_ALTO, TIEMPO_EXPIRADO => MONITOR
  | PMV_ALTO, TEMP_ALTA_3_INTENTOS => ALARMA
  | ALARMA, SENSOR_INFRARROJO => INICIO'
  | s, _ => s

/-- Mutable control state owned by the sketch: the FSM's current state, the
single pending event `input`, the overheat counter `conteoTempAlta` and the
`tiempoMonitorVencido` flag raised by `runTime` in state MONITOR.  Cached
sensor globals (`tempA`, `tempR`, `humedad`, `luz`) are omitted because every
consumer re-reads the sensors immediately before use (`checkPMV` calls
`leerSensores`, `outputPMV_Alto` calls `dht.readTemperature`). -/
structure Sys where
  current : State
  input : Input
  conteoTempAlta : Nat
  tiempoMonitorVencido : Bool
deriving DecidableEq, Repr

/-- External collaborators read during one loop iteration: the decoded serial
byte (`readInputSerial` result, `Unknown` when no byte is pending), whether
`TaskTime` expires this tick, whether the keypad reports a pressed star key,
whether the PIR line reads LOW (motion), the password-check outcome used by
`outputInicio`, and the sensor readings. -/
structure Env where
  serialIn : Input
  timerFired : Bool
  keyStar : Bool
  pirLow : Bool
  passwordOk : Bool
  tempA : ℚ
  tempR : ℚ
  humedad : ℚ

/-- The counter logic of `outputPMV_Alto` (proyecto.ino lines 983-1020):
`input` was just reset to `Unknown`; if the re-read ambient temperature is
strictly above 30 the counter is incremented, otherwise it is reset to 0;
if the counter has reached 3, `TEMP_ALTA_3_INTENTOS` is raised and the
counter is reset to 0.  Returns the raised event and the new counter. -/
def outputPMV_Alto (tempA : ℚ) (cnt : Nat) : Input × Nat :=
  let c1 := if tempA > 30 then cnt + 1 else 0
  if 3 ≤ c1 then (TEMP_ALTA_3_INTENTOS, 0) else (Unknown, c1)

/-- The effect on the control state of the entry action of state `t`
(`SetOnEntering` callbacks, proyecto.ino lines 616-622 and 767-1020).
Every entry action first executes `input = Unknown`; `outputInicio`
afterwards raises `CLAVE_CORRECTA` or `SISTEMA_BLOQUEADO` depending on the
password check, and `outputPMV_Alto` may raise `TEMP_ALTA_3_INTENTOS` from
the overheat counter.  LCD, serial, timer and actuator commands have no
effect on this state and are not represented; the exit actions
(`SetOnLeaving`, lines 625-631) touch actuators only. -/
def enterAction (env : Env) (t : State) (sys : Sys) : Sys :=
  match t with
  | INICIO' =>
      { sys with input := if env.passwordOk then CLAVE_CORRECTA else SISTEMA_BLOQUEADO }
  | PMV_ALTO =>
      let r := outputPMV_Alto env.tempA sys.conteoTempAlta
      { sys with input := r.1, conteoTempAlta := r.2 }
  | _ => { sys with input := Unknown }

/-- One call of `stateMachine.Update()`: if some rule from the current state
accepts the pending event, the state moves to the rule's target and that
state's entry action runs (the exit actions only drive actuators); otherwise
nothing happens.  The transition-taking mechanics follow the spec's `step`
contract, since `StateMachineLib` is not among the sources. -/
def machineUpdate (env : Env) (sys : Sys) : Sys :=
  match stepState sys.current sys.input with
  | none => sys
  | some t => enterAction env t { sys with current := t }

/-- `runTime` (proyecto.ino lines 479-485): on `TaskTime` expiry, in state
MONITOR set `tiempoMonitorVencido`, otherwise raise `TIEMPO_EXPIRADO`. -/
def runTime (sys : Sys) : Sys :=
  if sys.current = MONITOR then { sys with tiempoMonitorVencido := true }
  else { sys with input := TIEMPO_EXPIRADO }

/-- Iteration tolerance `tol = 0.0001` of `calcularPMV_Fanger`
(proyecto.ino line 1736). -/
def tol : ℝ := 0.0001

/-- `calcularPresionVapor` (proyecto.ino lines 1651-1654):
`pa = (rh/100) * exp(16.6536 - 4030.183/(ta + 235))`. -/
noncomputable def calcularPresionVapor (ta rh : ℝ) : ℝ :=
  (rh / 100.0) * Real.exp (16.6536 - 4030.183 / (ta + 235.0))

/-- `calcularHc` (proyecto.ino lines 1673-1679; semantically identical in
proyectoAC.ino lines 936-955): natural convection `2.38 * |tcl-ta|^0.25`
against forced convection `12.1 * sqrt(vel_ar)`, natural chosen only on
strict `>`. -/
noncomputable def calcularHc (tcl ta vel_ar : ℝ) : ℝ :=
  let hc_natural := 2.38 * |tcl - ta| ^ (0.25 : ℝ)
  let hc_forzada := 12.1 * Real.sqrt vel_ar
  if hc_natural > hc_forzada then hc_natural else hc_forzada

/-- `calcularFcl` (proyecto.ino lines 1693-1701). -/
noncomputable def calcularFcl (icl : ℝ) : ℝ :=
  if icl ≤ 0.078 then 1.00 + 1.290 * icl else 1.05 + 0.645 * icl

/-- One body execution of the `do { ... } while` loop of
`calcularPMV_Fanger` (proyecto.ino lines 1751-1770): recompute `hc`,
radiation and convection at the current `tcl` and produce the next `tcl`. -/
noncomputable def tclStep (ta tr vel_ar M V icl fcl : ℝ) (tcl : ℝ) : ℝ :=
  let hc := calcularHc tcl ta vel_ar
  let radiation := 3.96e-8 * fcl * ((tcl + 273.0) ^ 4 - (tr + 273.0) ^ 4)
  let convection := fcl * hc * (tcl - ta)
  35.7 - 0.028 * (M - V) - icl * (radiation - convection)

/-- The `do { body } while (fabs(tcl - tcl_prev) > tol && iteracion < 100)`
loop: the body always runs at least once; after a body run the loop
continues only while the change exceeds `tol` and fewer than 100 iterations
have run.  `budget` is the number of body runs still allowed (100 at entry),
`done` the number already performed.  Returns the final `tcl` and the final
`iteracion` count. -/
noncomputable def tclGo (f : ℝ → ℝ) : Nat → ℝ → Nat → ℝ × Nat
  | 0, tcl, done => (tcl, done)
  | n + 1, tcl, done =>
      let tcl' := f tcl
      if |tcl' - tcl| > tol then tclGo f n tcl' (done + 1) else (tcl', done + 1)

/-- The iterative `tcl` solve of `calcularPMV_Fanger` (lines 1733-1770):
`V = 0.0`, `icl = clo * 0.155`, `fcl = calcularFcl icl`, `tcl` initialised
to `ta`, at most `max_iters = 100` iterations.  Returns `(tcl, iteracion)`.
The loop body does not read `rh`/`pa`, so they are not parameters. -/
noncomputable def tclResult (ta tr vel_ar M clo : ℝ) : ℝ × Nat :=
  tclGo (tclStep ta tr vel_ar M 0.0 (clo * 0.155) (calcularFcl (clo * 0.155))) 100 ta 0

/-- The Arduino `constrain(amt, low, high)` macro:
`amt < low ? low : (amt > high ? high : amt)`. -/
noncomputable def constrainR (amt low high : ℝ) : ℝ :=
  if amt < low then low else if amt > high then high else amt

/-- The final PMV computation of `calcularPMV_Fanger` after the `tcl` loop
(proyecto.ino lines 1772-1793), as a function of the loop's final `tcl`:
final convective coefficient, heat-loss terms and Fanger's PMV equation,
before clamping. -/
noncomputable def pmvFinal (ta tr rh vel_ar M clo tcl : ℝ) : ℝ :=
  let V : ℝ := 0.0
  let icl := clo * 0.155
  let pa := calcularPresionVapor ta rh
  let fcl := calcularFcl icl
  let hc_final := calcularHc tcl ta vel_ar
  let radiation := 3.96e-8 * fcl * ((tcl + 273.0) ^ 4 - (tr + 273.0) ^ 4)
  let convection := fcl * hc_final * (tcl - ta)
  let respiration := 0.0014 * M * (34.0 - ta)
  let latent := 1.7e-5 * M * (5867.0 - pa)
  let heat_loss := latent + respiration + radiation + convection
  (0.303 * Real.exp (-0.036 * M) + 0.028) *
    ((M - V) - 3.05e-3 * (5733.0 - 6.99 * (M - V) - pa)
      - 0.42 * ((M - V) - 58.15) - heat_loss)

/-- `calcularPMV_Fanger(ta, tr, rh, vel_ar, M, clo)`
(proyecto.ino lines 1733-1797): iterate `tcl`, evaluate Fanger's equation at
the final iterate, clamp the result to `[-3, 3]` with `constrain`. -/
noncomputable def calcularPMV_Fanger (ta tr rh vel_ar M clo : ℝ) : ℝ :=
  constrainR (pmvFinal ta tr rh vel_ar M clo (tclResult ta tr vel_ar M clo).1) (-3.0) 3.0

/-- Modelled from the spec: the `converged` component of `PMVResult`
(spec section 3; no such flag exists in the sources, whose
`calcularPMV_Fanger` returns a bare `float`).  Following the spec's words,
the iteration "settles" when it stops because the change of `tcl` came
within the tolerance, i.e. the change at the final performed iteration is at
most `tol`. -/
noncomputable def spec_converged (ta tr vel_ar M clo : ℝ) : Prop :=
  let f := tclStep ta tr vel_ar M 0.0 (clo * 0.155) (calcularFcl (clo * 0.155))
  let j := (tclResult ta tr vel_ar M clo).2
  |f^[j] ta - f^[j - 1] ta| ≤ tol

/-- The PMV classification of `checkPMV` (proyecto.ino lines 1900-1906):
`pmv < -1` raises `PMV_MENOR_QUE_MENOS1`, `pmv > 1` raises
`PMV_MAYOR_QUE_1`, otherwise `TIEMPO_EXPIRADO`. -/
noncomputable def clasificarPMV (pmv : ℝ) : Input :=
  if pmv < -1 then PMV_MENOR_QUE_MENOS1
  else if pmv > 1 then PMV_MAYOR_QUE_1
  else TIEMPO_EXPIRADO

/-- `checkPMV` (proyecto.ino lines 1878-1911): only in state MONITOR with
`tiempoMonitorVencido` set does it clear the flag, re-read the sensors,
compute the PMV with the fixed parameters `M = 100`, `clo = 0.5`,
`vel_ar = 0.1`, and raise the classified event. -/
noncomputable def checkPMV (env : Env) (sys : Sys) : Sys :=
  if sys.current = MONITOR ∧ sys.tiempoMonitorVencido then
    { sys with
      tiempoMonitorVencido := false,
      input := clasificarPMV
        (calcularPMV_Fanger (env.tempA : ℝ) (env.tempR : ℝ) (env.humedad : ℝ) 0.1 100 0.5) }
  else sys

/-- `checkBloqueo` (proyecto.ino lines 1578-1585): in state BLOQUEO a star
key raises `TECLA_ASTERISCO`. -/
def checkBloqueo (env : Env) (sys : Sys) : Sys :=
  if sys.current = BLOQUEO ∧ env.keyStar then { sys with input := TECLA_ASTERISCO } else sys

/-- `checkMovimiento` (proyecto.ino lines 1926-1934): in state ALARMA a LOW
PIR reading raises `SENSOR_INFRARROJO`. -/
def checkMovimiento (env : Env) (sys : Sys) : Sys :=
  if sys.current = ALARMA ∧ env.pirLow then { sys with input := SENSOR_INFRARROJO } else sys

/-- One iteration of `loop()` (proyecto.ino lines 711-742) restricted to its
effect on the control state: serial ingestion when no event is pending, the
`TaskTime` expiry callback (the LED/buzzer/servo tasks only drive
actuators), the three check functions, then `stateMachine.Update()`.
`handleConfigRFID` and the trailing serial-command block touch only the RFID
registry and are omitted. -/
noncomputable def loopCycle (env : Env) (sys : Sys) : Sys :=
  let s1 := if sys.input = Unknown then { sys with input := env.serialIn } else sys
  let s2 := if env.timerFired then runTime s1 else s1
  let s3 := checkBloqueo env s2
  let s4 := checkPMV env s3
  let s5 := checkMovimiento env s4
  machineUpdate env s5

/-- `#define` record-layout constants (proyecto.ino lines 268-271). -/
def MAX_UID_LENGTH : Nat := 10

/-- Maximum stored name length (proyecto.ino line 269). -/
def NAME_MAX_LENGTH : Nat := 16

/-- `RECORD_SIZE = 1 + MAX_UID_LENGTH + NAME_MAX_LENGTH` (line 270). -/
def RECORD_SIZE : Nat := 1 + MAX_UID_LENGTH + NAME_MAX_LENGTH

/-- `MAX_RECORDS = 10` (line 271). -/
def MAX_RECORDS : Nat := 10

/-- `EEPROM.write(a, v)` on a byte-addressed memory modelled as a total map
from addresses to byte values. -/
def eepromWrite (rom : Nat → Nat) (a v : Nat) : Nat → Nat :=
  fun x => if x = a then v else rom x

/-- The body of the free-slot branch of `saveUIDAndName`
(proyecto.ino lines 1322-1342): write the UID length byte, the
`uidLength` UID bytes, then the 16 name bytes (name characters while
`i < strlen(name)`, `'\0'` padding afterwards). -/
def writeRecord (rom : Nat → Nat) (address : Nat) (uid : Nat → Nat)
    (uidLength : Nat) (name : List Nat) : Nat → Nat :=
  let r1 := eepromWrite rom address uidLength
  let r2 := (List.range uidLength).foldl
    (fun r i => eepromWrite r (address + 1 + i) (uid i)) r1
  (List.range NAME_MAX_LENGTH).foldl
    (fun r i => eepromWrite r (address + 1 + MAX_UID_LENGTH + i)
      (if i < name.length then name.getD i 0 else 0)) r2

/-- The slot-scanning loop of `saveUIDAndName` over the record indices still
to try: the first record whose first byte is the empty sentinel `0xFF`
receives the record and the loop `break`s; if no slot is free the memory is
returned untouched. -/
def saveLoop (uid : Nat → Nat) (uidLength : Nat) (name : List Nat) :
    List Nat → (Nat → Nat) → Nat → Nat
  | [], rom => rom
  | j :: rest, rom =>
      if rom (j * RECORD_SIZE) = 0xFF then
        writeRecord rom (j * RECORD_SIZE) uid uidLength name
      else saveLoop uid uidLength name rest rom

/-- `saveUIDAndName` (proyecto.ino lines 1317-1345): linear scan of the
`MAX_RECORDS` slots for the first free one. -/
def saveUIDAndName (uid : Nat → Nat) (uidLength : Nat) (name : List Nat)
    (rom : Nat → Nat) : Nat → Nat :=
  saveLoop uid uidLength name (List.range MAX_RECORDS) rom

/-- Entry actions never move the machine to a different state than the one
being entered. -/
theorem enterAction_current (env : Env) (t : State) (sys : Sys) :
    (enterAction env t sys).current = sys.current := by
  cases t <;> rfl

/-- The source-registered rule list agrees pointwise with the
specification's 11-row table (identity for pairs without a row). -/
theorem stepState_eq_table :
    ∀ (s : State) (i : Input), (stepState s i).getD s = spec_tableStep s i := by
  decide

/-- When no rule accepts the event, `stepState` yields no target. -/
theorem stepState_none_of_no_rule :
    ∀ (s : State) (i : Input), hasRule s i = false → stepState s i = none := by
  decide

/-- Claim C1: one call of the supervisor's step (`stateMachine.Update`)
moves the state exactly as the 11-row transition table prescribes, and for
every `(state, event)` pair without a table row the call leaves the whole
control state unchanged (the event is silently dropped, no crash: the
update function is total). -/
theorem C1_update_follows_table (env : Env) (sys : Sys) :
    (machineUpdate env sys).current = spec_tableStep sys.current sys.input ∧
      (hasRule sys.current sys.input = false → machineUpdate env sys = sys) := by
  constructor
  · cases h : stepState sys.current sys.input with
    | none =>
        have h2 := stepState_eq_table sys.current sys.input
        rw [h] at h2
        simp only [Option.getD_none] at h2
        simpa [machineUpdate, h] using h2
    | some t =>
        have h2 := stepState_eq_table sys.current sys.input
        rw [h] at h2
        simp only [Option.getD_some] at h2
        simp [machineUpdate, h, enterAction_current, h2]
  · intro hnone
    simp [machineUpdate, stepState_none_of_no_rule _ _ hnone]

/-- Closed instance of C1: in state CONFIG the event `PMV_MAYOR_QUE_1` has
no rule and one `Update` call is a no-op. -/
theorem C1_update_follows_table_witness :
    machineUpdate ⟨Unknown, false, false, false, true, 25, 25, 50⟩
        ⟨CONFIG, PMV_MAYOR_QUE_1, 0, false⟩ = ⟨CONFIG, PMV_MAYOR_QUE_1, 0, false⟩ :=
  (C1_update_follows_table ⟨Unknown, false, false, false, true, 25, 25, 50⟩
    ⟨CONFIG, PMV_MAYOR_QUE_1, 0, false⟩).2 (by decide)

/-- Claim C4: for every `fromState`, the predicates of the rules registered
for that state are mutually exclusive over the whole event domain, so for
every state and every single pending event at most one transition can fire
per step call.  (The rule set itself is a fixed constant of the embedding,
mirroring that `AddTransition` is called only from `setupStateMachine` at
initialization.) -/
theorem C4_rules_mutually_exclusive :
    (∀ i j : Fin rules.length, i ≠ j → (rules.get i).1 = (rules.get j).1 →
      ∀ e : Input, ¬((rules.get i).2.2 e = true ∧ (rules.get j).2.2 e = true)) ∧
    (∀ (s : State) (e : Input), matchCount s e ≤ 1) := by
  decide

/-- Closed instance of C4: the two distinct MONITOR rules indexed 4 and 6 do
not both accept `TIEMPO_EXPIRADO`. -/
theorem C4_rules_mutually_exclusive_witness :
    ¬((rules.get ⟨4, by decide⟩).2.2 TIEMPO_EXPIRADO = true ∧
      (rules.get ⟨6, by decide⟩).2.2 TIEMPO_EXPIRADO = true) :=
  C4_rules_mutually_exclusive.1 ⟨4, by decide⟩ ⟨6, by decide⟩ (by decide) (by decide)
    TIEMPO_EXPIRADO

/-- Claim C3: on every entry to PMV_ALTO the re-read ambient temperature
strictly above 30 increments `conteoTempAlta` and otherwise resets it to 0;
when the counter reaches 3 the event `TEMP_ALTA_3_INTENTOS` is raised and
the counter is immediately reset to 0; hence three consecutive entries with
temperature above 30 raise the event (which forces the transition to
ALARMA), while an entry at or below 30 before the third restarts the
count. -/
theorem C3_overheat_counter :
    (∀ (t : ℚ) (cnt : Nat), t ≤ 30 → outputPMV_Alto t cnt = (Unknown, 0)) ∧
    (∀ (t : ℚ) (cnt : Nat), 30 < t → cnt + 1 < 3 →
      outputPMV_Alto t cnt = (Unknown, cnt + 1)) ∧
    (∀ (t : ℚ) (cnt : Nat), 30 < t → 3 ≤ cnt + 1 →
      outputPMV_Alto t cnt = (TEMP_ALTA_3_INTENTOS, 0)) ∧
    (∀ t1 t2 t3 : ℚ, 30 < t1 → 30 < t2 → 30 < t3 →
      outputPMV_Alto t3 (outputPMV_Alto t2 (outputPMV_Alto t1 0).2).2 =
        (TEMP_ALTA_3_INTENTOS, 0)) ∧
    (∀ t1 t2 t3 : ℚ, 30 < t1 → 30 < t2 → t3 ≤ 30 →
      outputPMV_Alto t3 (outputPMV_Alto t2 (outputPMV_Alto t1 0).2).2 =
        (Unknown, 0)) ∧
    (∀ (env : Env) (cnt : Nat) (venc : Bool),
      (machineUpdate env ⟨PMV_ALTO, TEMP_ALTA_3_INTENTOS, cnt, venc⟩).current = ALARMA) := by
  refine ⟨?_, ?_, ?_, ?_, ?_, ?_⟩
  · intro t cnt h
    simp [outputPMV_Alto, not_lt.mpr h]
  · intro t cnt h h3
    simp [outputPMV_Alto, h]
    omega
  · intro t cnt h h3
    simp [outputPMV_Alto, h]
    omega
  · intro t1 t2 t3 h1 h2 h3
    simp [outputPMV_Alto, h1, h2, h3]
  · intro t1 t2 t3 h1 h2 h3
    simp [outputPMV_Alto, h1, h2, not_lt.mpr h3]
  · intro env cnt venc
    have h : stepState PMV_ALTO TEMP_ALTA_3_INTENTOS = some ALARMA := by decide
    simp [machineUpdate, h, enterAction_current]

/-- Closed instance of C3: three consecutive hot entries starting from a
zero counter raise `TEMP_ALTA_3_INTENTOS` with the counter reset. -/
theorem C3_overheat_counter_witness :
    outputPMV_Alto 33 (outputPMV_Alto 32 (outputPMV_Alto 31 0).2).2 =
      (TEMP_ALTA_3_INTENTOS, 0) :=
  C3_overheat_counter.2.2.2.1 31 32 33 (by norm_num) (by norm_num) (by norm_num)

/-- Claim C5 as amended: the pending event is consumed whenever a transition
is taken (the post-transition pending event is a function of the entered
state, the environment and the overheat counter alone, never of the consumed
event); a cycle in which no rule matches does NOT reset the event — it
merely leaves the entire control state unchanged, so the stale event can
still never fire a transition in any number of later update calls. -/
theorem C5_event_consumption :
    (∀ (env : Env) (sys1 sys2 : Sys) (t : State),
      stepState sys1.current sys1.input = some t →
      stepState sys2.current sys2.input = some t →
      sys1.conteoTempAlta = sys2.conteoTempAlta →
      (machineUpdate env sys1).input = (machineUpdate env sys2).input) ∧
    (∀ (env : Env) (sys : Sys), stepState sys.current sys.input = none →
      machineUpdate env sys = sys) ∧
    (∀ (env : Env) (sys : Sys) (n : Nat), stepState sys.current sys.input = none →
      (machineUpdate env)^[n] sys = sys) := by
  refine ⟨?_, ?_, ?_⟩
  · intro env sys1 sys2 t h1 h2 hcnt
    simp only [machineUpdate, h1, h2]
    cases t <;> simp [enterAction, hcnt]
  · intro env sys h
    simp [machineUpdate, h]
  · intro env sys n h
    induction n with
    | zero => rfl
    | succ n ih =>
        rw [Function.iterate_succ_apply]
        rw [show machineUpdate env sys = sys from by simp [machineUpdate, h]]
        exact ih

/-- Counterexample to C5 as stated: a full `loop()` cycle in state CONFIG
with pending event `PMV_MAYOR_QUE_1` (matched by no CONFIG rule, no timer
expiry, no keypad, no motion) completes without consuming the event: the
pending event is still `PMV_MAYOR_QUE_1`, not `Unknown`. -/
theorem C5_counterexample :
    (loopCycle ⟨Unknown, false, false, false, true, 25, 25, 50⟩
        ⟨CONFIG, PMV_MAYOR_QUE_1, 0, false⟩).input = PMV_MAYOR_QUE_1 ∧
    hasRule CONFIG PMV_MAYOR_QUE_1 = false ∧
    PMV_MAYOR_QUE_1 ≠ Unknown := by
  refine ⟨?_, by decide, by decide⟩
  have h : stepState CONFIG PMV_MAYOR_QUE_1 = none := by decide
  simp [loopCycle, runTime, checkBloqueo, checkPMV, checkMovimiento, machineUpdate, h]

/-- Closed instance of the amended C5: from a no-match configuration any
number of update calls leaves the control state unchanged. -/
theorem C5_event_consumption_witness :
    (machineUpdate ⟨Unknown, false, false, false, true, 25, 25, 50⟩)^[5]
        ⟨CONFIG, PMV_MAYOR_QUE_1, 0, false⟩ = ⟨CONFIG, PMV_MAYOR_QUE_1, 0, false⟩ :=
  C5_event_consumption.2.2 ⟨Unknown, false, false, false, true, 25, 25, 50⟩
    ⟨CONFIG, PMV_MAYOR_QUE_1, 0, false⟩ 5 (by decide)

/-- Claim C7: `calcularHc` computes the maximum of the natural-convection
term `2.38*|tcl-ta|^0.25` and the forced-convection term `12.1*sqrt(v)`, and
on an exact tie the forced-convection expression is the branch selected
(natural convection wins only on strict `>`). -/
theorem C7_hc_max (tcl ta vel_ar : ℝ) :
    calcularHc tcl ta vel_ar =
      max (2.38 * |tcl - ta| ^ (0.25 : ℝ)) (12.1 * Real.sqrt vel_ar) ∧
    (2.38 * |tcl - ta| ^ (0.25 : ℝ) = 12.1 * Real.sqrt vel_ar →
      calcularHc tcl ta vel_ar = 12.1 * Real.sqrt vel_ar) := by
  constructor
  · simp only [calcularHc]
    rcases le_or_lt (2.38 * |tcl - ta| ^ (0.25 : ℝ)) (12.1 * Real.sqrt vel_ar) with h | h
    · rw [if_neg (not_lt.mpr h), max_eq_right h]
    · rw [if_pos h, max_eq_left h.le]
  · intro h
    simp only [calcularHc]
    rw [h, if_neg (lt_irrefl _)]

/-- Closed instance of C7: at `tcl = ta` and zero air speed the two
convection terms tie at 0 and the forced-convection branch is returned. -/
theorem C7_hc_max_witness : calcularHc 0 0 0 = 12.1 * Real.sqrt 0 :=
  (C7_hc_max 0 0 0).2 (by
    rw [Real.sqrt_zero, sub_zero, abs_zero, Real.zero_rpow (by norm_num : (0.25:ℝ) ≠ 0)]
    norm_num)

/-- Writing a byte elsewhere leaves an address unchanged. -/
theorem eepromWrite_ne (rom : Nat → Nat) (a v x : Nat) (h : x ≠ a) :
    eepromWrite rom a v x = rom x := if_neg h

/-- A fold of writes at addresses `g i` leaves any other address
unchanged. -/
theorem foldl_write_frame (g v : Nat → Nat) (l : List Nat) (rom : Nat → Nat)
    (x : Nat) (h : ∀ i ∈ l, g i ≠ x) :
    (l.foldl (fun r i => eepromWrite r (g i) (v i)) rom) x = rom x := by
  induction l generalizing rom with
  | nil => rfl
  | cons a as ih =>
      simp only [List.foldl_cons]
      rw [ih _ fun i hi => h i (List.mem_cons_of_mem a hi)]
      exact eepromWrite_ne rom (g a) (v a) x fun hx => h a (List.mem_cons_self a as) hx.symm

/-- `writeRecord` writes only inside the `RECORD_SIZE` bytes starting at
`address` provided the UID length respects its hardware bound. -/
theorem writeRecord_frame (rom : Nat → Nat) (address : Nat) (uid : Nat → Nat)
    (uidLength : Nat) (name : List Nat) (x : Nat)
    (hlen : uidLength ≤ MAX_UID_LENGTH)
    (hx : x < address ∨ address + RECORD_SIZE ≤ x) :
    writeRecord rom address uid uidLength name x = rom x := by
  have hRS : RECORD_SIZE = 27 := rfl
  have hM : MAX_UID_LENGTH = 10 := rfl
  simp only [writeRecord]
  rw [foldl_write_frame]
  · rw [foldl_write_frame]
    · exact eepromWrite_ne rom address uidLength x (by omega)
    · intro i hi
      have : i < uidLength := List.mem_range.mp hi
      omega
  · intro i hi
    have : i < NAME_MAX_LENGTH := List.mem_range.mp hi
    have hN : NAME_MAX_LENGTH = 16 := rfl
    omega

/-- While every scanned slot is occupied, the scan writes nothing. -/
theorem saveLoop_full (uid : Nat → Nat) (uidLength : Nat) (name : List Nat) :
    ∀ (l : List Nat) (rom : Nat → Nat),
      (∀ j ∈ l, rom (j * RECORD_SIZE) ≠ 0xFF) →
      saveLoop uid uidLength name l rom = rom := by
  intro l
  induction l with
  | nil => intro rom _; rfl
  | cons a as ih =>
      intro rom h
      simp only [saveLoop]
      rw [if_neg (h a (List.mem_cons_self a as))]
      exact ih rom fun j hj => h j (List.mem_cons_of_mem a hj)

/-- The scan writes the record into the first free slot of the scan list. -/
theorem saveLoop_first_free (uid : Nat → Nat) (uidLength : Nat) (name : List Nat)
    (j : Nat) :
    ∀ (l1 l2 : List Nat) (rom : Nat → Nat),
      (∀ k ∈ l1, rom (k * RECORD_SIZE) ≠ 0xFF) →
      rom (j * RECORD_SIZE) = 0xFF →
      saveLoop uid uidLength name (l1 ++ j :: l2) rom =
        writeRecord rom (j * RECORD_SIZE) uid uidLength name := by
  intro l1
  induction l1 with
  | nil =>
      intro l2 rom _ hfree
      simp only [List.nil_append, saveLoop]
      rw [if_pos hfree]
  | cons a as ih =>
      intro l2 rom h hfree
      simp only [List.cons_append, saveLoop]
      rw [if_neg (h a (List.mem_cons_self a as))]
      exact ih l2 rom (fun k hk => h k (List.mem_cons_of_mem a hk)) hfree

/-- Claim C10: for a UID respecting the hardware bound of 10 bytes,
`saveUIDAndName` with a full registry (no slot whose first byte is the
`0xFF` sentinel) leaves the whole EEPROM unchanged (and, being `void`,
signals nothing); and when slot `j` is the first free slot in index order,
every byte outside that slot's `RECORD_SIZE`-byte record is unchanged. -/
theorem C10_save_frame (uid : Nat → Nat) (uidLength : Nat) (name : List Nat)
    (rom : Nat → Nat) (hlen : uidLength ≤ MAX_UID_LENGTH) :
    ((∀ j, j < MAX_RECORDS → rom (j * RECORD_SIZE) ≠ 0xFF) →
      saveUIDAndName uid uidLength name rom = rom) ∧
    (∀ j, j < MAX_RECORDS → rom (j * RECORD_SIZE) = 0xFF →
      (∀ k, k < j → rom (k * RECORD_SIZE) ≠ 0xFF) →
      ∀ x, (x < j * RECORD_SIZE ∨ (j + 1) * RECORD_SIZE ≤ x) →
        saveUIDAndName uid uidLength name rom x = rom x) := by
  constructor
  · intro h
    exact saveLoop_full uid uidLength name (List.range MAX_RECORDS) rom
      fun j hj => h j (List.mem_range.mp hj)
  · intro j hj hfree hfirst x hx
    obtain ⟨m, hm⟩ : ∃ m, MAX_RECORDS = j + (m + 1) := ⟨MAX_RECORDS - j - 1, by omega⟩
    have hsplit : List.range MAX_RECORDS =
        List.range j ++ j :: (List.range m).map (fun k => j + (k + 1)) := by
      rw [hm, List.range_add, List.range_succ_eq_map, List.map_cons, List.map_map]
      simp [Function.comp_def]
    unfold saveUIDAndName
    rw [hsplit, saveLoop_first_free uid uidLength name j _ _ rom
      (fun k hk => hfirst k (List.mem_range.mp hk)) hfree]
    refine writeRecord_frame rom (j * RECORD_SIZE) uid uidLength name x hlen ?_
    have h27 : RECORD_SIZE = 27 := rfl
    rw [h27] at hx ⊢
    omega

/-- Closed instance of C10: with no free slot (no `0xFF` first byte
anywhere) the EEPROM is returned untouched. -/
theorem C10_save_frame_witness :
    saveUIDAndName (fun _ => 1) 4 [65] (fun _ => 0) = (fun _ => 0) :=
  (C10_save_frame (fun _ => 1) 4 [65] (fun _ => 0) (by decide)).1 (by decide)

/-- Claim C2: when the monitoring timeout has fired in state MONITOR,
`checkPMV` clears the flag, recomputes the PMV from fresh sensor readings
with the fixed parameters `M = 100`, `clo = 0.5`, `vel_ar = 0.1`, and raises
exactly one event: `PMV_MENOR_QUE_MENOS1` iff `pmv < -1`,
`PMV_MAYOR_QUE_1` iff `pmv > 1`, and `TIEMPO_EXPIRADO` for every
`-1 ≤ pmv ≤ 1`, boundaries included; `TIEMPO_EXPIRADO` routes MONITOR back
to CONFIG. -/
theorem C2_classification :
    (∀ pmv : ℝ, pmv < -1 → clasificarPMV pmv = PMV_MENOR_QUE_MENOS1) ∧
    (∀ pmv : ℝ, 1 < pmv → clasificarPMV pmv = PMV_MAYOR_QUE_1) ∧
    (∀ pmv : ℝ, -1 ≤ pmv → pmv ≤ 1 → clasificarPMV pmv = TIEMPO_EXPIRADO) ∧
    (∀ (env : Env) (i : Input) (cnt : Nat),
      checkPMV env ⟨MONITOR, i, cnt, true⟩ =
        ⟨MONITOR,
          clasificarPMV (calcularPMV_Fanger (env.tempA : ℝ) (env.tempR : ℝ)
            (env.humedad : ℝ) 0.1 100 0.5), cnt, false⟩) ∧
    spec_tableStep MONITOR TIEMPO_EXPIRADO = CONFIG := by
  refine ⟨?_, ?_, ?_, ?_, rfl⟩
  · intro pmv h
    simp [clasificarPMV, h]
  · intro pmv h
    have h1 : ¬(pmv < -1) := by linarith
    simp [clasificarPMV, h1, h]
  · intro pmv h1 h2
    have h3 : ¬(pmv < -1) := by linarith
    have h4 : ¬(1 < pmv) := by linarith
    simp [clasificarPMV, h3, h4]
  · intro env i cnt
    simp [checkPMV]

/-- Closed instance of C2: the boundary values −1 and +1 both classify as
`TIEMPO_EXPIRADO`, while −2 and +2 classify as the low and high comfort
events. -/
theorem C2_classification_witness :
    clasificarPMV (-1) = TIEMPO_EXPIRADO ∧ clasificarPMV 1 = TIEMPO_EXPIRADO ∧
      clasificarPMV (-2) = PMV_MENOR_QUE_MENOS1 ∧ clasificarPMV 2 = PMV_MAYOR_QUE_1 :=
  ⟨C2_classification.2.2.1 (-1) (by norm_num) (by norm_num),
   C2_classification.2.2.1 1 (by norm_num) (by norm_num),
   C2_classification.1 (-2) (by norm_num),
   C2_classification.2.1 2 (by norm_num)⟩

/-- Full characterization of the `do/while` loop `tclGo` in terms of the
iterates of the body: with a budget of `n + 1` body runs it performs
`i + 1 ≤ n + 1` of them, returns the `(i+1)`-st iterate together with the
iteration count, every earlier step moved by more than `tol`, and if it
stopped before exhausting the budget the final step moved by at most
`tol`. -/
theorem tclGo_iterate (f : ℝ → ℝ) :
    ∀ (n : Nat) (t : ℝ) (d : Nat),
      ∃ i, i + 1 ≤ n + 1 ∧
        (tclGo f (n + 1) t d).1 = f^[i + 1] t ∧
        (tclGo f (n + 1) t d).2 = d + (i + 1) ∧
        (∀ k, k < i → |f^[k + 1] t - f^[k] t| > tol) ∧
        (i + 1 < n + 1 → |f^[i + 1] t - f^[i] t| ≤ tol) := by
  intro n
  induction n with
  | zero =>
      intro t d
      have h1 : tclGo f 1 t d = (f t, d + 1) := by
        simp only [tclGo]
        split <;> rfl
      exact ⟨0, by omega, by rw [h1]; simp, by rw [h1], fun k hk => absurd hk (by omega),
        fun h => absurd h (by omega)⟩
  | succ n ih =>
      intro t d
      by_cases h : |f t - t| > tol
      · have hstep : tclGo f (n + 1 + 1) t d = tclGo f (n + 1) (f t) (d + 1) := by
          simp only [tclGo]
          rw [if_pos h]
        obtain ⟨i, hi1, hp1, hp2, hall, hstop⟩ := ih (f t) (d + 1)
        refine ⟨i + 1, by omega, ?_, ?_, ?_, ?_⟩
        · rw [hstep, hp1, ← Function.iterate_succ_apply]
        · rw [hstep, hp2]; omega
        · intro k hk
          cases k with
          | zero => simpa using h
          | succ k' =>
              have h2 := hall k' (by omega)
              rw [Function.iterate_succ_apply f (k' + 1) t, Function.iterate_succ_apply f k' t]
              exact h2
        · intro hlt
          have h2 := hstop (by omega)
          rw [Function.iterate_succ_apply f (i + 1) t, Function.iterate_succ_apply f i t]
          exact h2
      · have hstep : tclGo f (n + 1 + 1) t d = (f t, d + 1) := by
          simp only [tclGo]
          rw [if_neg h]
        exact ⟨0, by omega, by rw [hstep]; simp, by rw [hstep],
          fun k hk => absurd hk (by omega), fun _ => by simpa using not_lt.mp h⟩

/-- Claim C8: the fixed-point iteration of `calcularPMV_Fanger` always
terminates: it performs between 1 and 100 iterations, runs on exactly while
the change exceeds `1e-4` and the budget is not exhausted, and when it stops
before the 100th iteration the final change is within the tolerance (so the
function returns a value on every input — the embedding is a total
function). -/
theorem C8_iteration_terminates (ta tr vel_ar M clo : ℝ) :
    ∃ j, 1 ≤ j ∧ j ≤ 100 ∧
      (tclResult ta tr vel_ar M clo).2 = j ∧
      (tclResult ta tr vel_ar M clo).1 =
        (tclStep ta tr vel_ar M 0.0 (clo * 0.155) (calcularFcl (clo * 0.155)))^[j] ta ∧
      (∀ k, k + 1 < j →
        |(tclStep ta tr vel_ar M 0.0 (clo * 0.155) (calcularFcl (clo * 0.155)))^[k + 1] ta -
          (tclStep ta tr vel_ar M 0.0 (clo * 0.155) (calcularFcl (clo * 0.155)))^[k] ta| > tol) ∧
      (j < 100 →
        |(tclStep ta tr vel_ar M 0.0 (clo * 0.155) (calcularFcl (clo * 0.155)))^[j] ta -
          (tclStep ta tr vel_ar M 0.0 (clo * 0.155) (calcularFcl (clo * 0.155)))^[j - 1] ta| ≤ tol) := by
  obtain ⟨i, hi1, hp1, hp2, hall, hstop⟩ :=
    tclGo_iterate (tclStep ta tr vel_ar M 0.0 (clo * 0.155) (calcularFcl (clo * 0.155))) 99 ta 0
  refine ⟨i + 1, by omega, by omega, ?_, ?_, ?_, ?_⟩
  · simpa [tclResult] using hp2
  · simpa [tclResult] using hp1
  · intro k hk
    exact hall k (by omega)
  · intro hlt
    simpa using hstop (by omega)

/-- Closed instance of C8 at a concrete comfortable input. -/
theorem C8_iteration_terminates_witness :
    ∃ j, 1 ≤ j ∧ j ≤ 100 ∧
      (tclResult 25 25 0.1 100 0.5).2 = j ∧
      (tclResult 25 25 0.1 100 0.5).1 =
        (tclStep 25 25 0.1 100 0.0 (0.5 * 0.155) (calcularFcl (0.5 * 0.155)))^[j] 25 ∧
      (∀ k, k + 1 < j →
        |(tclStep 25 25 0.1 100 0.0 (0.5 * 0.155) (calcularFcl (0.5 * 0.155)))^[k + 1] 25 -
          (tclStep 25 25 0.1 100 0.0 (0.5 * 0.155) (calcularFcl (0.5 * 0.155)))^[k] 25| > tol) ∧
      (j < 100 →
        |(tclStep 25 25 0.1 100 0.0 (0.5 * 0.155) (calcularFcl (0.5 * 0.155)))^[j] 25 -
          (tclStep 25 25 0.1 100 0.0 (0.5 * 0.155) (calcularFcl (0.5 * 0.155)))^[j - 1] 25| ≤ tol) :=
  C8_iteration_terminates 25 25 0.1 100 0.5

/-- Fourth-root upper bound: `x^(1/4) ≤ y` whenever `x ≤ y^4`. -/
theorem rpow_quarter_le {x y : ℝ} (hx : 0 ≤ x) (hy : 0 ≤ y) (h : x ≤ y ^ (4 : Nat)) :
    x ^ (0.25 : ℝ) ≤ y := by
  have key : (y ^ (4 : Nat) : ℝ) ^ (0.25 : ℝ) = y := by
    rw [← Real.rpow_natCast y 4, ← Real.rpow_mul hy]
    norm_num
  calc x ^ (0.25 : ℝ) ≤ (y ^ (4 : Nat)) ^ (0.25 : ℝ) :=
        Real.rpow_le_rpow hx h (by norm_num)
    _ = y := key

/-- Fourth-root lower bound: `y ≤ x^(1/4)` whenever `y^4 ≤ x`. -/
theorem le_rpow_quarter {x y : ℝ} (hy : 0 ≤ y) (h : y ^ (4 : Nat) ≤ x) :
    y ≤ x ^ (0.25 : ℝ) := by
  have key : (y ^ (4 : Nat) : ℝ) ^ (0.25 : ℝ) = y := by
    rw [← Real.rpow_natCast y 4, ← Real.rpow_mul hy]
    norm_num
  calc y = (y ^ (4 : Nat)) ^ (0.25 : ℝ) := key.symm
    _ ≤ x ^ (0.25 : ℝ) := Real.rpow_le_rpow (pow_nonneg hy 4) h (by norm_num)

/-- With zero air velocity the forced-convection term vanishes and
`calcularHc` always returns the natural-convection expression. -/
theorem hc_zero_vel (tcl ta : ℝ) :
    calcularHc tcl ta 0 = 2.38 * |tcl - ta| ^ (0.25 : ℝ) := by
  simp only [calcularHc, Real.sqrt_zero, mul_zero]
  by_cases h : 2.38 * |tcl - ta| ^ (0.25 : ℝ) > 0
  · rw [if_pos h]
  · have h0 : 0 ≤ 2.38 * |tcl - ta| ^ (0.25 : ℝ) :=
      mul_nonneg (by norm_num) (Real.rpow_nonneg (abs_nonneg _) _)
    rw [if_neg h]
    linarith [le_antisymm (not_lt.mp h) h0]

/-- Clothing factor at `clo = 3`: `icl = 0.465 > 0.078`, so
`fcl = 1.05 + 0.645*0.465 = 1.349925`. -/
theorem fclD : calcularFcl (3 * 0.155) = 1.349925 := by
  unfold calcularFcl
  rw [if_neg (by norm_num)]
  norm_num

/-- The loop body of `calcularPMV_Fanger` at the extreme-hot test input
`ta = 60, tr = 60, vel_ar = 0, M = 300, clo = 3` of the specification. -/
noncomputable def stepD : ℝ → ℝ :=
  tclStep 60 60 0 300 0.0 (3 * 0.155) (calcularFcl (3 * 0.155))

/-- Closed form of `stepD` below the air temperature. -/
theorem stepD_eq (t : ℝ) (ht : t ≤ 60) :
    stepD t = 27.3 - 0.627715125 *
      (3.96e-8 * ((t + 273) ^ 4 - 333 ^ 4) +
        2.38 * (60 - t) ^ (0.25 : ℝ) * (60 - t)) := by
  unfold stepD tclStep
  rw [hc_zero_vel, fclD]
  rw [show |t - 60| = 60 - t from by rw [abs_of_nonpos (by linarith)]; ring]
  ring_nf

/-- First iterate at the extreme-hot input: at `tcl = ta = 60` both
convection terms vanish and both radiation temperatures coincide. -/
theorem iterD1 : stepD 60 = 27.3 := by
  rw [stepD_eq 60 le_rfl]
  norm_num

/-- Second iterate: enclosure of `stepD 27.3` using
`2.39 ≤ 32.7^(1/4) ≤ 2.392`. -/
theorem iterD2 : 13.9 ≤ stepD 27.3 ∧ stepD 27.3 ≤ 14.1 := by
  rw [stepD_eq 27.3 (by norm_num)]
  have he : (60 : ℝ) - 27.3 = 32.7 := by norm_num
  rw [he]
  have h1 : (2.39 : ℝ) ≤ (32.7 : ℝ) ^ (0.25 : ℝ) :=
    le_rpow_quarter (by norm_num) (by norm_num)
  have h2 : (32.7 : ℝ) ^ (0.25 : ℝ) ≤ 2.392 :=
    rpow_quarter_le (by norm_num) (by norm_num) (by norm_num)
  constructor <;> nlinarith [h1, h2]

/-- Interval propagation for the third iterate. -/
theorem stepD_int3 (t : ℝ) (h1 : 13.9 ≤ t) (h2 : t ≤ 14.1) :
    -16 ≤ stepD t ∧ stepD t ≤ -13 := by
  rw [stepD_eq t (by linarith)]
  have hr1 : (2.60 : ℝ) ≤ (60 - t) ^ (0.25 : ℝ) := by
    refine le_rpow_quarter (by norm_num) ?_
    norm_num
    linarith
  have hr2 : (60 - t) ^ (0.25 : ℝ) ≤ 2.606 := by
    refine rpow_quarter_le (by linarith) (by norm_num) ?_
    norm_num
    linarith
  have hq1 : ((286.9 : ℝ)) ^ 4 ≤ (t + 273) ^ 4 :=
    pow_le_pow_left₀ (by norm_num) (by linarith) 4
  have hq2 : (t + 273) ^ 4 ≤ ((287.1 : ℝ)) ^ 4 :=
    pow_le_pow_left₀ (by linarith) (by linarith) 4
  have hB1 : 2.38 * ((60 - t) ^ (0.25 : ℝ)) * (60 - t) ≤ 2.38 * 2.606 * 46.1 := by
    nlinarith [hr1, hr2]
  have hB2 : 2.38 * 2.60 * 45.9 ≤ 2.38 * ((60 - t) ^ (0.25 : ℝ)) * (60 - t) := by
    nlinarith [hr1, hr2]
  constructor <;> nlinarith [hB1, hB2, hq1, hq2]

/-- Interval propagation for the fourth iterate. -/
theorem stepD_int4 (t : ℝ) (h1 : -16 ≤ t) (h2 : t ≤ -13) :
    -117 ≤ stepD t ∧ stepD t ≤ -93 := by
  rw [stepD_eq t (by linarith)]
  have hr1 : (2.92 : ℝ) ≤ (60 - t) ^ (0.25 : ℝ) := by
    refine le_rpow_quarter (by norm_num) ?_
    norm_num
    linarith
  have hr2 : (60 - t) ^ (0.25 : ℝ) ≤ 2.96 := by
    refine rpow_quarter_le (by linarith) (by norm_num) ?_
    norm_num
    linarith
  have hq1 : ((257 : ℝ)) ^ 4 ≤ (t + 273) ^ 4 :=
    pow_le_pow_left₀ (by norm_num) (by linarith) 4
  have hq2 : (t + 273) ^ 4 ≤ ((260 : ℝ)) ^ 4 :=
    pow_le_pow_left₀ (by linarith) (by linarith) 4
  have hB1 : 2.38 * ((60 - t) ^ (0.25 : ℝ)) * (60 - t) ≤ 2.38 * 2.96 * 76 := by
    nlinarith [hr1, hr2]
  have hB2 : 2.38 * 2.92 * 73 ≤ 2.38 * ((60 - t) ^ (0.25 : ℝ)) * (60 - t) := by
    nlinarith [hr1, hr2]
  constructor <;> nlinarith [hB1, hB2, hq1, hq2]

/-- Interval propagation for the fifth iterate. -/
theorem stepD_int5 (t : ℝ) (h1 : -117 ≤ t) (h2 : t ≤ -93) :
    -659 ≤ stepD t ∧ stepD t ≤ -484 := by
  rw [stepD_eq t (by linarith)]
  have hr1 : (3.51 : ℝ) ≤ (60 - t) ^ (0.25 : ℝ) := by
    refine le_rpow_quarter (by norm_num) ?_
    norm_num
    linarith
  have hr2 : (60 - t) ^ (0.25 : ℝ) ≤ 3.65 := by
    refine rpow_quarter_le (by linarith) (by norm_num) ?_
    norm_num
    linarith
  have hq1 : ((156 : ℝ)) ^ 4 ≤ (t + 273) ^ 4 :=
    pow_le_pow_left₀ (by norm_num) (by linarith) 4
  have hq2 : (t + 273) ^ 4 ≤ ((180 : ℝ)) ^ 4 :=
    pow_le_pow_left₀ (by linarith) (by linarith) 4
  have hB1 : 2.38 * ((60 - t) ^ (0.25 : ℝ)) * (60 - t) ≤ 2.38 * 3.65 * 177 := by
    nlinarith [hr1, hr2]
  have hB2 : 2.38 * 3.51 * 153 ≤ 2.38 * ((60 - t) ^ (0.25 : ℝ)) * (60 - t) := by
    nlinarith [hr1, hr2]
  constructor <;> nlinarith [hB1, hB2, hq1, hq2]

/-- Interval propagation for the sixth iterate, where the quartic radiation
term has taken over and the iterate falls below the runaway threshold. -/
theorem stepD_int6 (t : ℝ) (h1 : -659 ≤ t) (h2 : t ≤ -484) :
    stepD t ≤ -3633 := by
  rw [stepD_eq t (by linarith)]
  have hr1 : (4.82 : ℝ) ≤ (60 - t) ^ (0.25 : ℝ) := by
    refine le_rpow_quarter (by norm_num) ?_
    norm_num
    linarith
  have hr2 : (60 - t) ^ (0.25 : ℝ) ≤ 5.18 := by
    refine rpow_quarter_le (by linarith) (by norm_num) ?_
    norm_num
    linarith
  have heven : (t + 273) ^ 4 = (-(t + 273)) ^ 4 := by ring
  have hq1 : ((211 : ℝ)) ^ 4 ≤ (-(t + 273)) ^ 4 :=
    pow_le_pow_left₀ (by norm_num) (by linarith) 4
  have hq2 : (-(t + 273)) ^ 4 ≤ ((386 : ℝ)) ^ 4 :=
    pow_le_pow_left₀ (by linarith) (by linarith) 4
  have hB2 : 2.38 * 4.82 * 544 ≤ 2.38 * ((60 - t) ^ (0.25 : ℝ)) * (60 - t) := by
    nlinarith [hr1, hr2]
  nlinarith [hB2, hq1, hq2, heven]

/-- Runaway regime, quantitatively: once the iterate is at or below `-3500`
the quartic radiation term dominates every other term and the next iterate
is at most `-1.7e-8 * t^4` — each further step raises the magnitude to the
fourth power (up to a constant). -/
theorem stepD_quartic (t : ℝ) (h : t ≤ -3500) :
    stepD t ≤ -1.7e-8 * t ^ 4 := by
  rw [stepD_eq t (by linarith)]
  have hr0 : 0 ≤ (60 - t) ^ (0.25 : ℝ) := Real.rpow_nonneg (by linarith) _
  have hB0 : 0 ≤ 2.38 * ((60 - t) ^ (0.25 : ℝ)) * (60 - t) := by nlinarith [hr0]
  have hu : (0 : ℝ) ≤ 0.92 * (-t) := by linarith
  have ha : 0.92 * (-t) ≤ -(t + 273) := by linarith
  have hb := pow_le_pow_left₀ hu ha 4
  have heven : (t + 273) ^ 4 = (-(t + 273)) ^ 4 := by ring
  have heven2 : t ^ 4 = (-t) ^ 4 := by ring
  have he : (3500 : ℝ) ^ 4 ≤ (-t) ^ 4 := pow_le_pow_left₀ (by norm_num) (by linarith) 4
  nlinarith [hB0, hb, heven, heven2, he]

/-- The iterates of the extreme-hot loop body, starting at `tcl = ta = 60`. -/
noncomputable def tIterD (k : Nat) : ℝ := stepD^[k] 60

/-- Unfolding one application of the iterate. -/
theorem tIterD_succ (k : Nat) : tIterD (k + 1) = stepD (tIterD k) := by
  simp only [tIterD, Function.iterate_succ_apply']

/-- Start of the iteration. -/
theorem tD0 : tIterD 0 = 60 := rfl

/-- First iterate, exactly. -/
theorem tD1 : tIterD 1 = 27.3 := by
  rw [show (1 : Nat) = 0 + 1 from rfl, tIterD_succ, tD0, iterD1]

/-- Second iterate enclosure. -/
theorem tD2 : 13.9 ≤ tIterD 2 ∧ tIterD 2 ≤ 14.1 := by
  rw [show (2 : Nat) = 1 + 1 from rfl, tIterD_succ, tD1]
  exact iterD2

/-- Third iterate enclosure. -/
theorem tD3 : -16 ≤ tIterD 3 ∧ tIterD 3 ≤ -13 := by
  rw [show (3 : Nat) = 2 + 1 from rfl, tIterD_succ]
  exact stepD_int3 _ tD2.1 tD2.2

/-- Fourth iterate enclosure. -/
theorem tD4 : -117 ≤ tIterD 4 ∧ tIterD 4 ≤ -93 := by
  rw [show (4 : Nat) = 3 + 1 from rfl, tIterD_succ]
  exact stepD_int4 _ tD3.1 tD3.2

/-- Fifth iterate enclosure. -/
theorem tD5 : -659 ≤ tIterD 5 ∧ tIterD 5 ≤ -484 := by
  rw [show (5 : Nat) = 4 + 1 from rfl, tIterD_succ]
  exact stepD_int5 _ tD4.1 tD4.2

/-- Sixth iterate: below the runaway threshold. -/
theorem tD6 : tIterD 6 ≤ -3633 := by
  rw [show (6 : Nat) = 5 + 1 from rfl, tIterD_succ]
  exact stepD_int6 _ tD5.1 tD5.2


/-- Seventh iterate: the quartic blow-up has begun. -/
theorem tD7 : tIterD 7 ≤ -2.9e6 := by
  rw [show (7 : Nat) = 6 + 1 from rfl, tIterD_succ]
  have h6 := tD6
  have hq := stepD_quartic _ (by linarith)
  have heven : tIterD 6 ^ 4 = (-tIterD 6) ^ 4 := by ring
  have hp : ((3633 : ℝ)) ^ 4 ≤ (-tIterD 6) ^ 4 :=
    pow_le_pow_left₀ (by norm_num) (by linarith) 4
  nlinarith [hq, hp, heven]

/-- Eighth iterate: beyond `-10^18`. -/
theorem tD8 : tIterD 8 ≤ -1.2e18 := by
  rw [show (8 : Nat) = 7 + 1 from rfl, tIterD_succ]
  have h7 := tD7
  have hq := stepD_quartic _ (by linarith)
  have heven : tIterD 7 ^ 4 = (-tIterD 7) ^ 4 := by ring
  have hp : ((2.9e6 : ℝ)) ^ 4 ≤ (-tIterD 7) ^ 4 :=
    pow_le_pow_left₀ (by norm_num) (by linarith) 4
  nlinarith [hq, hp, heven]

/-- Claim C6 (code-bug evidence): at the extreme hot input
`ta = 60, tr = 60, rh = 100, vel = 0, M = 300, clo = 3` named by the claim,
the true (real-number) value of the ninth iterate of the `tcl` loop body is
already below `-3.402823e38`, the negative of the largest finite `float`
(IEEE-754 binary32) magnitude.  The sketch stores `tcl` in a 32-bit `float`,
so on the device the iteration overflows to `-inf` around this iteration,
the next body run computes `inf - inf = NaN` inside `fabs`, the `do/while`
comparison on `NaN` is false so the loop exits, Fanger's equation at a `NaN`
`tcl` is `NaN`, and `constrain(NaN, -3, 3)` propagates `NaN` (both of its
comparisons are false).  The function therefore returns `NaN` at this input
— neither the `+3.0` asserted by the claim and the specification, nor any
value in the `[-3, +3]` range promised by the source's own `@warning`
documentation of `calcularPMV_Fanger`. -/
theorem C6_float_overflow : tIterD 9 < -3.402823e38 := by
  rw [show (9 : Nat) = 8 + 1 from rfl, tIterD_succ]
  have h8 := tD8
  have hq := stepD_quartic _ (by linarith)
  have heven : tIterD 8 ^ 4 = (-tIterD 8) ^ 4 := by ring
  have hp : ((1.2e18 : ℝ)) ^ 4 ≤ (-tIterD 8) ^ 4 :=
    pow_le_pow_left₀ (by norm_num) (by linarith) 4
  nlinarith [hq, hp, heven]

/-- Unfolding one body run of the `do/while` loop. -/
theorem tclGo_succ_eq (f : ℝ → ℝ) (n : Nat) (t : ℝ) (d : Nat) :
    tclGo f (n + 1) t d =
      if |f t - t| > tol then tclGo f n (f t) (d + 1) else (f t, d + 1) := by
  simp only [tclGo]


/-- Clothing factor at `clo = 2`: `icl = 0.31 > 0.078`, so
`fcl = 1.05 + 0.645*0.31 = 1.24995`. -/
theorem fclB : calcularFcl (2 * 0.155) = 1.24995 := by
  unfold calcularFcl
  rw [if_neg (by norm_num)]
  norm_num

/-- At air speed `1 m/s` and `ta = 145`, forced convection wins whenever
`|tcl - ta| ≤ 600`: the natural coefficient `2.38 * |tcl-ta|^0.25` is at
most `2.38 * 4.95 < 12.1 = 12.1 * sqrt 1` (since `600 ≤ 4.95^4`), and the
source's strict `>` then selects the forced branch. -/
theorem hc_forced (t : ℝ) (h : |t - 145| ≤ 600) : calcularHc t 145 1 = 12.1 := by
  simp only [calcularHc, Real.sqrt_one, mul_one]
  have hr : |t - 145| ^ (0.25 : ℝ) ≤ 4.95 :=
    rpow_quarter_le (abs_nonneg _) (by norm_num) (by norm_num; linarith)
  rw [if_neg (by push_neg; nlinarith [hr])]

/-- The loop body of `calcularPMV_Fanger` at the bounded non-convergent
input `ta = 145, tr = 179, vel_ar = 1, M = 100, clo = 2`. -/
noncomputable def stepB : ℝ → ℝ :=
  tclStep 145 179 1 100 0.0 (2 * 0.155) (calcularFcl (2 * 0.155))

/-- Closed polynomial form of `stepB` while `|t - 145| ≤ 600`: with `hc`
pinned to the forced value `12.1` the body is a quartic polynomial
(no fractional power remains). -/
theorem stepB_eq (t : ℝ) (h : |t - 145| ≤ 600) :
    stepB t = 32.9 - 1.53443862e-8 * ((t + 273) ^ 4 - 452 ^ 4)
      + 4.68856245 * (t - 145) := by
  unfold stepB tclStep
  rw [hc_forced t h, fclB]
  ring_nf

/-- `stepB` is decreasing on `[152, 206]`: the quartic radiation slope
`4 * 1.53443862e-8 * 425^3 ≈ 4.7117` beats the linear convection slope
`4.68856245`. -/
theorem stepB_mono (t1 t2 : ℝ) (h1 : 152 ≤ t1) (h2 : t1 ≤ t2) (h3 : t2 ≤ 206) :
    stepB t2 ≤ stepB t1 := by
  rw [stepB_eq t1 (by rw [abs_le]; constructor <;> linarith),
      stepB_eq t2 (by rw [abs_le]; constructor <;> linarith)]
  have ha : (425 : ℝ) ^ 3 ≤ (t1 + 273) ^ 3 :=
    pow_le_pow_left₀ (by norm_num) (by linarith) 3
  have hb : (425 : ℝ) ^ 3 ≤ (t2 + 273) ^ 3 :=
    pow_le_pow_left₀ (by norm_num) (by linarith) 3
  nlinarith [ha, hb, sq_nonneg (t1 + 273), sq_nonneg (t2 + 273), sq_nonneg (t2 - t1),
    mul_nonneg (mul_nonneg (show (0:ℝ) ≤ t2 - t1 by linarith)
      (show (0:ℝ) ≤ t1 + 273 by linarith)) (show (0:ℝ) ≤ t2 + 273 by linarith)]

/-- The first iterate `stepB 145 = 32.9 - 1.53443862e-8*(418^4 - 452^4)`
lands in the upper window `[204.93, 205.62]` of the attracting 2-cycle. -/
theorem stepB_t1 : 204.93 ≤ stepB 145 ∧ stepB 145 ≤ 205.62 := by
  rw [stepB_eq 145 (by norm_num)]
  norm_num

/-- `stepB` maps the upper window `[204.93, 205.62]` into the lower window
`[152.19, 154.04]` (monotonicity plus exact evaluation at the ends). -/
theorem stepB_high_to_low (t : ℝ) (h1 : 204.93 ≤ t) (h2 : t ≤ 205.62) :
    152.19 ≤ stepB t ∧ stepB t ≤ 154.04 := by
  have hu := stepB_mono 204.93 t (by norm_num) h1 (by linarith)
  have hl := stepB_mono t 205.62 (by linarith) h2 (by norm_num)
  have e1 : stepB 204.93 ≤ 154.04 := by
    rw [stepB_eq 204.93 (by rw [abs_le]; norm_num)]
    norm_num
  have e2 : 152.19 ≤ stepB 205.62 := by
    rw [stepB_eq 205.62 (by rw [abs_le]; norm_num)]
    norm_num
  exact ⟨le_trans e2 hl, le_trans hu e1⟩

/-- `stepB` maps the lower window `[152.19, 154.04]` back into the upper
window `[204.93, 205.62]`. -/
theorem stepB_low_to_high (t : ℝ) (h1 : 152.19 ≤ t) (h2 : t ≤ 154.04) :
    204.93 ≤ stepB t ∧ stepB t ≤ 205.62 := by
  have hu := stepB_mono 152.19 t (by norm_num) h1 (by linarith)
  have hl := stepB_mono t 154.04 (by linarith) h2 (by norm_num)
  have e1 : stepB 152.19 ≤ 205.62 := by
    rw [stepB_eq 152.19 (by rw [abs_le]; norm_num)]
    norm_num
  have e2 : 204.93 ≤ stepB 154.04 := by
    rw [stepB_eq 154.04 (by rw [abs_le]; norm_num)]
    norm_num
  exact ⟨le_trans e2 hl, le_trans hu e1⟩

/-- The iterates of `stepB` starting at `tcl = ta = 145`. -/
noncomputable def tIterB (k : Nat) : ℝ := stepB^[k] 145

/-- Unfolding one application of the iterate. -/
theorem tIterB_succ (k : Nat) : tIterB (k + 1) = stepB (tIterB k) := by
  simp only [tIterB, Function.iterate_succ_apply']

/-- Start of the iteration. -/
theorem tB0 : tIterB 0 = 145 := rfl

/-- First iterate enclosure. -/
theorem tB1 : 204.93 ≤ tIterB 1 ∧ tIterB 1 ≤ 205.62 := by
  rw [show (1 : Nat) = 0 + 1 from rfl, tIterB_succ, tB0]
  exact stepB_t1

/-- The iteration is trapped by the attracting 2-cycle of `stepB`
(approximately `{152.49, 205.56}`): every odd iterate from the first on
lies in the upper window and every even iterate from the second on lies in
the lower window, for ever. -/
theorem tIterB_windows : ∀ k : Nat,
    (204.93 ≤ tIterB (2 * k + 1) ∧ tIterB (2 * k + 1) ≤ 205.62) ∧
    (152.19 ≤ tIterB (2 * k + 2) ∧ tIterB (2 * k + 2) ≤ 154.04) := by
  intro k
  induction k with
  | zero =>
      have hA : 204.93 ≤ tIterB (2 * 0 + 1) ∧ tIterB (2 * 0 + 1) ≤ 205.62 := tB1
      have hB : 152.19 ≤ tIterB (2 * 0 + 2) ∧ tIterB (2 * 0 + 2) ≤ 154.04 := by
        rw [show 2 * 0 + 2 = (2 * 0 + 1) + 1 from rfl, tIterB_succ]
        exact stepB_high_to_low _ hA.1 hA.2
      exact ⟨hA, hB⟩
  | succ k ih =>
      have hA : 204.93 ≤ tIterB (2 * (k + 1) + 1) ∧ tIterB (2 * (k + 1) + 1) ≤ 205.62 := by
        rw [show 2 * (k + 1) + 1 = (2 * k + 2) + 1 from by ring, tIterB_succ]
        exact stepB_low_to_high _ ih.2.1 ih.2.2
      have hB : 152.19 ≤ tIterB (2 * (k + 1) + 2) ∧ tIterB (2 * (k + 1) + 2) ≤ 154.04 := by
        rw [show 2 * (k + 1) + 2 = (2 * (k + 1) + 1) + 1 from rfl, tIterB_succ]
        exact stepB_high_to_low _ hA.1 hA.2
      exact ⟨hA, hB⟩

/-- Every one of the first 100 steps of the 2-cycle iteration moves the
iterate by more than `50` (the windows are `50.89` apart), hence far beyond
the tolerance: the loop never stops early. -/
theorem deltaB : ∀ k, k < 100 → |tIterB (k + 1) - tIterB k| > tol := by
  have key : ∀ x : ℝ, 50 ≤ x ∨ x ≤ -50 → |x| > tol := by
    intro x h
    rcases h with h | h
    · rw [abs_of_nonneg (by linarith), show tol = 0.0001 from rfl]; linarith
    · rw [abs_of_nonpos (by linarith), show tol = 0.0001 from rfl]; linarith
  intro k _
  rcases Nat.even_or_odd k with ⟨j, hj⟩ | ⟨j, hj⟩
  · rcases Nat.eq_zero_or_pos j with hj0 | hjpos
    · have hk0 : k = 0 := by omega
      subst hk0
      have h1 := tB1
      rw [show (0 : Nat) + 1 = 1 from rfl, tB0]
      exact key _ (Or.inl (by linarith [h1.1]))
    · obtain ⟨m, hm⟩ : ∃ m, j = m + 1 := ⟨j - 1, by omega⟩
      have w1 := (tIterB_windows m).2
      have w2 := (tIterB_windows (m + 1)).1
      rw [show k + 1 = 2 * (m + 1) + 1 from by omega, show k = 2 * m + 2 from by omega]
      exact key _ (Or.inl (by linarith [w1.2, w2.1]))
  · have w1 := (tIterB_windows j).1
    have w2 := (tIterB_windows j).2
    rw [show k + 1 = 2 * j + 2 from by omega, hj]
    exact key _ (Or.inr (by linarith [w1.1, w2.2]))

/-- At the 2-cycle input the loop exhausts all 100 iterations (it never
comes within tolerance) and returns the hundredth iterate — yet every
iterate stays within `[145, 206]`: no overflow is involved, so the float
machine follows the real-number model here. -/
theorem tclResultB : tclResult 145 179 1 100 2 = (tIterB 100, 100) := by
  obtain ⟨i, hi1, hp1, hp2, hall, hstop⟩ := tclGo_iterate stepB 99 145 0
  have hi99 : i = 99 := by
    by_contra hne
    have hconv := hstop (by omega)
    have hdelta := deltaB i (by omega)
    have heq : tIterB (i + 1) = stepB^[i + 1] 145 := rfl
    have heq2 : tIterB i = stepB^[i] 145 := rfl
    rw [heq, heq2] at hdelta
    linarith [hconv, hdelta]
  subst hi99
  have hres : tclResult 145 179 1 100 2 = tclGo stepB (99 + 1) 145 0 := rfl
  rw [hres]
  refine Prod.ext ?_ ?_
  · rw [hp1]; rfl
  · rw [hp2]

/-- Vapor pressure vanishes at zero relative humidity, whatever the air
temperature. -/
theorem pa_zero (ta : ℝ) : calcularPresionVapor ta 0 = 0 := by
  unfold calcularPresionVapor
  norm_num

/-- Over the lower window the Fanger equation at the 2-cycle input
evaluates to at least `+3`: the clothed surface at `152-155 °C` against
`179 °C` radiant and `145 °C` air gives a hugely positive bracket
(`≈ 356..412`) while the metabolic factor stays at least `0.028`. -/
theorem pmvFinal_B_ge (T : ℝ) (h1 : 152.19 ≤ T) (h2 : T ≤ 154.04) :
    3 ≤ pmvFinal 145 179 0 1 100 2 T := by
  have hhc : calcularHc T 145 1 = 12.1 :=
    hc_forced T (by rw [abs_le]; constructor <;> linarith)
  set E := Real.exp (-0.036 * 100) with hE_def
  have hE0 : 0 < E := Real.exp_pos _
  have hQ : pmvFinal 145 179 0 1 100 2 T =
      (0.303 * E + 0.028) *
        (100 - 3.05e-3 * (5733 - 6.99 * 100) - 0.42 * 41.85 -
          (1.7e-5 * 100 * 5867 + 0.0014 * 100 * (34 - 145) +
            3.96e-8 * 1.24995 * ((T + 273) ^ 4 - 452 ^ 4) +
              1.24995 * 12.1 * (T - 145))) := by
    simp only [pmvFinal, hhc, fclB, pa_zero, ← hE_def]
    ring_nf
  rw [hQ]
  have hq2 : (T + 273) ^ 4 ≤ (427.04 : ℝ) ^ 4 :=
    pow_le_pow_left₀ (by linarith) (by linarith) 4
  have final : ∀ F Br : ℝ, 0.028 ≤ F → 110 ≤ Br → 3 ≤ F * Br := by
    intro F Br hF hBr
    nlinarith
  exact final _ _ (by nlinarith [hE0]) (by nlinarith [hq2])

/-- The Arduino `constrain` returns `high` whenever the value is at least
`high` (and `low ≤ high`). -/
theorem constrainR_ge_high (amt low high : ℝ) (h : high ≤ amt) (hlh : low ≤ high) :
    constrainR amt low high = high := by
  unfold constrainR
  rw [if_neg (not_lt.mpr (le_trans hlh h))]
  by_cases h1 : amt > high
  · rw [if_pos h1]
  · rw [if_neg h1]
    exact le_antisymm (not_lt.mp h1) h

/-- At the bounded non-convergent input the returned PMV is exactly `+3`:
the hundredth iterate lies in the lower window, the Fanger value there is
`≥ 3`, and the clamp returns the hot end. -/
theorem calcB : calcularPMV_Fanger 145 179 0 1 100 2 = 3 := by
  have h : calcularPMV_Fanger 145 179 0 1 100 2 =
      constrainR (pmvFinal 145 179 0 1 100 2 (tclResult 145 179 1 100 2).1)
        (-3.0) 3.0 := rfl
  rw [h, tclResultB]
  show constrainR (pmvFinal 145 179 0 1 100 2 (tIterB 100)) (-3.0) 3.0 = 3
  have h100 : 152.19 ≤ tIterB 100 ∧ tIterB 100 ≤ 154.04 := by
    have hw := (tIterB_windows 49).2
    rwa [show 2 * 49 + 2 = 100 from by norm_num] at hw
  rw [show (-3.0 : ℝ) = -3 from by norm_num, show (3.0 : ℝ) = 3 from by norm_num]
  exact constrainR_ge_high _ _ _ (pmvFinal_B_ge _ h100.1 h100.2) (by norm_num)

/-- At `ta = 32.9, M = 100, clo = 0` the loop body is the constant `32.9`:
with `icl = 0` the clothing term vanishes and `35.7 - 0.028*100 = 32.9 =
ta` (the radiant temperature `tr = 150` is multiplied away). -/
theorem stepA_const (t : ℝ) :
    tclStep 32.9 150 0 100 0.0 (0 * 0.155) (calcularFcl (0 * 0.155)) t = 32.9 := by
  simp only [tclStep]
  ring

/-- At that input the very first iteration already repeats `ta` exactly, so
the loop converges after one iteration. -/
theorem tclResultA : tclResult 32.9 150 0 100 0 = (32.9, 1) := by
  have h : tclResult 32.9 150 0 100 0 =
      tclGo (tclStep 32.9 150 0 100 0.0 (0 * 0.155) (calcularFcl (0 * 0.155)))
        (99 + 1) 32.9 0 := rfl
  rw [h, tclGo_succ_eq, stepA_const, sub_self, abs_zero, if_neg (by norm_num [tol])]

/-- Clothing factor at `clo = 0`. -/
theorem fclA : calcularFcl (0 * 0.155) = 1 := by
  unfold calcularFcl
  rw [if_pos (by norm_num)]
  norm_num

/-- At the hot convergent input `ta = 32.9, tr = 150, rh = 0, vel = 0,
M = 100, clo = 0` the Fanger value is at least `+3`: the radiant
temperature `150 °C` makes the radiation term a gain of about `921 W/m²`
and the bracket about `+978`. -/
theorem pmvFinal_A_ge : 3 ≤ pmvFinal 32.9 150 0 0 100 0 32.9 := by
  set E := Real.exp (-0.036 * 100) with hE_def
  set hc := calcularHc 32.9 32.9 0 with hhc_def
  have hE0 : 0 < E := Real.exp_pos _
  have hQ : pmvFinal 32.9 150 0 0 100 0 32.9 =
      (0.303 * E + 0.028) *
        (100 - 3.05e-3 * (5034 : ℝ) - 0.42 * 41.85 -
          (1.7e-5 * 100 * 5867 + 0.0014 * 100 * 1.1 +
            3.96e-8 * ((305.9 : ℝ) ^ 4 - (423 : ℝ) ^ 4))) := by
    simp only [pmvFinal, pa_zero, fclA, ← hE_def, ← hhc_def]
    ring_nf
  rw [hQ]
  have hval : (110 : ℝ) ≤ 100 - 3.05e-3 * 5034 - 0.42 * 41.85 -
      (1.7e-5 * 100 * 5867 + 0.0014 * 100 * 1.1 +
        3.96e-8 * ((305.9 : ℝ) ^ 4 - (423 : ℝ) ^ 4)) := by
    norm_num
  nlinarith [hE0, hval]

/-- At the hot convergent input the returned PMV is exactly `+3`. -/
theorem calcA : calcularPMV_Fanger 32.9 150 0 0 100 0 = 3 := by
  have h : calcularPMV_Fanger 32.9 150 0 0 100 0 =
      constrainR (pmvFinal 32.9 150 0 0 100 0 (tclResult 32.9 150 0 100 0).1)
        (-3.0) 3.0 := rfl
  rw [h, tclResultA]
  show constrainR (pmvFinal 32.9 150 0 0 100 0 32.9) (-3.0) 3.0 = 3
  rw [show (-3.0 : ℝ) = -3 from by norm_num, show (3.0 : ℝ) = 3 from by norm_num]
  exact constrainR_ge_high _ _ _ pmvFinal_A_ge (by norm_num)

/-- Counterexample to C9 as stated: no `converged` flag is surfaced to the
caller — `calcularPMV_Fanger` returns a bare clamped number, and two
bounded, overflow-free inputs on which the iteration respectively settles
(`ta = 32.9, tr = 150, rh = 0, vel = 0, M = 100, clo = 0`: one iteration,
zero change) and fails to settle (`ta = 145, tr = 179, rh = 0, vel = 1,
M = 100, clo = 2`: the iterates are trapped by an attracting 2-cycle, all
100 iterations run and the final change is about `52`, half a million times
the tolerance) return the identical value `+3`, so the returned result
carries no convergence information at all. -/
theorem C9_counterexample :
    spec_converged 32.9 150 0 100 0 ∧ ¬spec_converged 145 179 1 100 2 ∧
      calcularPMV_Fanger 32.9 150 0 0 100 0 = calcularPMV_Fanger 145 179 0 1 100 2 := by
  refine ⟨?_, ?_, ?_⟩
  · have h1 : (tclResult 32.9 150 0 100 0).2 = 1 := by rw [tclResultA]
    simp only [spec_converged, h1]
    rw [show (1 : Nat) - 1 = 0 from rfl, Function.iterate_one, Function.iterate_zero_apply]
    rw [stepA_const, sub_self, abs_zero]
    norm_num [tol]
  · have h2 : (tclResult 145 179 1 100 2).2 = 100 := by rw [tclResultB]
    simp only [spec_converged, h2]
    rw [show (100 : Nat) - 1 = 99 from rfl]
    exact not_le.mpr (deltaB 99 (by norm_num))
  · rw [calcA, calcB]

/-- Claim C9 as amended: whatever the input, the iteration count `j` lies
in `[1, 100]` and the returned value is the `constrain` clamp of Fanger's
equation evaluated at the last (`j`-th) iterate: when the iteration does
not settle within the budget the last iterate is still used (degraded
result, not an error path) — but the result is a bare number: no
`converged` flag exists in the returned value. -/
theorem C9_degraded_result (ta tr rh vel_ar M clo : ℝ) :
    ∃ j, 1 ≤ j ∧ j ≤ 100 ∧ (tclResult ta tr vel_ar M clo).2 = j ∧
      calcularPMV_Fanger ta tr rh vel_ar M clo =
        constrainR (pmvFinal ta tr rh vel_ar M clo
          ((tclStep ta tr vel_ar M 0.0 (clo * 0.155) (calcularFcl (clo * 0.155)))^[j] ta))
          (-3.0) 3.0 := by
  obtain ⟨i, hi1, hp1, hp2, hall, hstop⟩ :=
    tclGo_iterate (tclStep ta tr vel_ar M 0.0 (clo * 0.155) (calcularFcl (clo * 0.155))) 99 ta 0
  have hres1 : (tclResult ta tr vel_ar M clo).1 =
      (tclStep ta tr vel_ar M 0.0 (clo * 0.155) (calcularFcl (clo * 0.155)))^[i + 1] ta := by
    simpa [tclResult] using hp1
  have hdef : calcularPMV_Fanger ta tr rh vel_ar M clo =
      constrainR (pmvFinal ta tr rh vel_ar M clo (tclResult ta tr vel_ar M clo).1)
        (-3.0) 3.0 := rfl
  refine ⟨i + 1, by omega, by omega, by simpa [tclResult] using hp2, ?_⟩
  rw [hdef, hres1]

/-- Closed instance of the amended C9 at a concrete input. -/
theorem C9_degraded_result_witness :
    ∃ j, 1 ≤ j ∧ j ≤ 100 ∧ (tclResult 25 25 0.1 100 0.5).2 = j ∧
      calcularPMV_Fanger 25 25 50 0.1 100 0.5 =
        constrainR (pmvFinal 25 25 50 0.1 100 0.5
          ((tclStep 25 25 0.1 100 0.0 (0.5 * 0.155) (calcularFcl (0.5 * 0.155)))^[j] 25))
          (-3.0) 3.0 :=
  C9_degraded_result 25 25 50 0.1 100 0.5

end ProyectoAC
